import Mathlib

/-!
Shallow embedding of the conversion core of the `adk-llm-bridge` repository.

The embedded code:
* `src/converters/request.ts` — ADK request → OpenAI-format messages/tools
  (`convertRequest`, `processContent`, `convertTools`, `normalizeSchema`,
  `extractText`, `extractSystemInstruction`);
* `src/converters/response.ts` — OpenAI-format response/stream → ADK
  (`convertResponse`, `convertStreamChunk`, `createStreamAccumulator`,
  `safeJsonParse`);
* `src/providers/anthropic/converters/response.ts` — Anthropic stream → ADK
  (`convertAnthropicStreamEvent`, `createAnthropicStreamAccumulator`).

Modelling conventions:
* JavaScript values manipulated dynamically (tool-parameter schemas,
  function-call arguments) are embedded as the inductive `JSValue`, which
  includes `undefined` as a value.
* TypeScript optional / nullable fields are embedded as `Option`;
  JavaScript truthiness tests on strings are `jsTruthyStr` (a string is
  falsy exactly when it is empty, and `undefined`/`null` are falsy).
* The JS builtins `JSON.parse` and `JSON.stringify` and the wall clock
  `Date.now()` are not repository code; functions that call them take them
  as explicit parameters (`jparse : String → Option JSValue`, where `none`
  models a thrown `SyntaxError`; `jstr : JSValue → String`; `now : Nat`).
* A JS `Map` with numeric keys is embedded as an association list in
  insertion order: `mapSet` overwrites in place or appends a new key at the
  end, matching `Map.prototype.set` iteration-order semantics.
* Functions that mutate an accumulator in place are embedded in state-passing
  style, returning the updated accumulator alongside their result.
-/

namespace AdkLlmBridge

/-- A JavaScript value as manipulated by the dynamically-typed parts of the
converters (schema objects, parsed JSON arguments).  `vUndefined` is the JS
`undefined` value; `vObj` keeps fields in insertion order. -/
inductive JSValue where
  | vUndefined
  | vNull
  | vBool (b : Bool)
  | vNum (n : Int)
  | vStr (s : String)
  | vArr (elems : List JSValue)
  | vObj (fields : List (String × JSValue))
  deriving Repr

/-- ASCII lowercasing of one character, the effect of JS
`String.prototype.toLowerCase` on the ASCII range used by schema type
names (`"OBJECT"`, `"STRING"`, ...). -/
def jsCharToLower (c : Char) : Char :=
  if 65 ≤ c.toNat ∧ c.toNat ≤ 90 then Char.ofNat (c.toNat + 32) else c

/-- Model of `value.toLowerCase()` on the strings the normalizer lowercases. -/
def jsToLower (s : String) : String := String.mk (s.data.map jsCharToLower)

/-- JS truthiness of a possibly-absent string: `undefined`/`null` and the
empty string are falsy, every other string is truthy. -/
def jsTruthyStr : Option String → Bool
  | some s => !(s == "")
  | none => false

mutual

/-- Embedding of `normalizeSchema` (src/converters/request.ts).  The source
returns `undefined` when `!schema || typeof schema !== "object"`; every JS
primitive (and `null`/`undefined`) takes that branch, while arrays and plain
objects proceed to the `Object.entries` loop.  `Object.entries` of an array
yields its elements keyed by their decimal indices, so an array input
produces a plain object keyed by `"0"`, `"1"`, ....  The `undefined` result
is embedded as the value `JSValue.vUndefined`. -/
def normalizeSchema : JSValue → JSValue
  | .vObj fields => .vObj (normFields fields)
  | .vArr elems => .vObj (arrNormEntries 0 elems)
  | _ => .vUndefined

/-- The `for (const [key, value] of Object.entries(input))` loop of
`normalizeSchema` over the fields of an object input. -/
def normFields : List (String × JSValue) → List (String × JSValue)
  | [] => []
  | (k, v) :: rest => (k, normValue k v) :: normFields rest

/-- The same loop over `Object.entries` of an array input: keys are the
decimal renderings of the indices, starting at `i`. -/
def arrNormEntries (i : Nat) : List JSValue → List (String × JSValue)
  | [] => []
  | v :: rest => (toString i, normValue (toString i) v) :: arrNormEntries (i + 1) rest

/-- The per-entry branch of `normalizeSchema`'s loop: a string value of the
key `"type"` is lowercased; a plain-object value (not an array, not `null`)
is normalized recursively (recursion on a non-null object never yields the
`undefined` sentinel, so the stored value is the normalized object); arrays
and every other value are stored unchanged. -/
def normValue (k : String) (v : JSValue) : JSValue :=
  match v with
  | .vStr s => if k == "type" then .vStr (jsToLower s) else .vStr s
  | .vObj fs => .vObj (normFields fs)
  | w => w

end

/-- A `functionCall` payload of an ADK `Part` (all fields optional in the
`@google/genai` type). -/
structure FunctionCallData where
  id : Option String
  name : Option String
  args : Option JSValue
  deriving Repr

/-- A `functionResponse` payload of an ADK `Part`. -/
structure FunctionResponseData where
  id : Option String
  name : Option String
  response : Option JSValue
  deriving Repr

/-- An ADK `Part` as consumed by the request converter: the source inspects
the three optional fields `text`, `functionCall`, `functionResponse`
independently, so the embedding keeps them as independent options. -/
structure Part where
  text : Option String
  functionCall : Option FunctionCallData
  functionResponse : Option FunctionResponseData
  deriving Repr

/-- An ADK `Content` (one conversation turn): a role and an optional parts
list, as consumed by `processContent`. -/
structure Content where
  role : String
  parts : Option (List Part)
  deriving Repr

/-- The `function` field of an OpenAI tool-call record on an assistant
message: `arguments` is a JSON-encoded string, not a parsed object. -/
structure ToolCallFunctionParam where
  name : String
  arguments : String
  deriving Repr, DecidableEq

/-- One entry of an assistant message's `tool_calls` list.  The source
always constructs it with `type: "function"`; the field is kept so that
statements can speak about it. -/
structure ToolCallParam where
  id : String
  type : String
  function : ToolCallFunctionParam
  deriving Repr, DecidableEq

/-- An OpenAI-format chat message as produced by the request converter.
For `assistant`, `content = none` embeds the explicit JS `null` the source
always writes (the field is always present on the constructed object),
while `tool_calls = none` embeds an absent field (the source attaches it
only when there is at least one call). -/
inductive ChatMessage where
  | system (content : String)
  | user (content : String)
  | assistant (content : Option String) (tool_calls : Option (List ToolCallParam))
  | tool (tool_call_id : String) (content : String)
  deriving Repr

/-- The collected `texts` of `processContent`: each part with a truthy
(non-empty) `text` contributes it, in part order. -/
def collectTexts (parts : List Part) : List String :=
  parts.filterMap fun p =>
    match p.text with
    | some t => if t == "" then none else some t
    | none => none

/-- One collected entry of `processContent`'s `calls` list: the fallback id
is `` `call_${Date.now()}` `` (wall clock passed in as `now`), the missing
name defaults to `""`, and `arguments` is `JSON.stringify(args ?? {})`. -/
def collectCall (now : Nat) (jstr : JSValue → String) (fc : FunctionCallData) :
    ToolCallParam :=
  { id := fc.id.getD ("call_" ++ toString now)
    type := "function"
    function :=
      { name := fc.name.getD ""
        arguments := jstr (fc.args.getD (.vObj [])) } }

/-- The collected `calls` of `processContent`, in part order (the source
keeps plain records and maps them to tool-call params when emitting the
assistant message; the two steps are fused here, preserving the data). -/
def collectCalls (now : Nat) (jstr : JSValue → String) (parts : List Part) :
    List ToolCallParam :=
  parts.filterMap fun p => (p.functionCall).map (collectCall now jstr)

/-- The collected `responses` of `processContent`: id defaults to `""`,
content is `JSON.stringify(part.functionResponse.response ?? {})`. -/
def collectResponses (jstr : JSValue → String) (parts : List Part) :
    List (String × String) :=
  parts.filterMap fun p =>
    (p.functionResponse).map fun fr =>
      (fr.id.getD "", jstr (fr.response.getD (.vObj [])))

/-- Embedding of `processContent` (src/converters/request.ts).  The source
appends messages to a mutable array; the embedding returns the list of
messages appended for this turn.  Turns with no parts yield nothing; a
`user` turn yields an optional user message followed by one `tool` message
per function response; a `model` turn with text or calls yields exactly one
assistant message; any other role yields nothing. -/
def processContent (now : Nat) (jstr : JSValue → String) (content : Content) :
    List ChatMessage :=
  match content.parts with
  | none => []
  | some parts =>
    if parts.length == 0 then []
    else
      let texts := collectTexts parts
      let calls := collectCalls now jstr parts
      let responses := collectResponses jstr parts
      if content.role == "user" then
        (if texts.length == 0 then []
         else [ChatMessage.user (String.intercalate "\n" texts)]) ++
        responses.map fun r => ChatMessage.tool r.1 r.2
      else if content.role == "model" then
        if texts.length != 0 || calls.length != 0 then
          [ChatMessage.assistant
            (if texts.length != 0 then some (String.intercalate "\n" texts) else none)
            (if calls.length != 0 then some calls else none)]
        else []
      else []

/-- Embedding of `extractText` (src/converters/request.ts): text parts of a
system-instruction `Content`, filtered by truthiness and joined with
newlines. -/
def extractText (parts : List Part) : String :=
  String.intercalate "\n" (parts.filterMap fun p =>
    match p.text with
    | some t => if t == "" then none else some t
    | none => none)

/-- The `systemInstruction` field of the request config: absent, a plain
string, or a `Content`-like object with parts. -/
inductive SystemInstruction where
  | absent
  | str (s : String)
  | content (parts : Option (List Part))
  deriving Repr

/-- Embedding of `extractSystemInstruction` (src/converters/request.ts). -/
def extractSystemInstruction (sys : SystemInstruction) : Option String :=
  match sys with
  | .absent => none
  | .str s => if s == "" then none else some s
  | .content parts => some (extractText (parts.getD []))

/-- An ADK function declaration as consumed by `convertTools`. -/
structure FunctionDeclaration where
  name : Option String
  description : Option String
  parameters : Option JSValue
  deriving Repr

/-- One ADK tool group: the source only processes groups exposing a
`functionDeclarations` array. -/
structure ToolGroup where
  functionDeclarations : Option (List FunctionDeclaration)
  deriving Repr

/-- An OpenAI-format tool definition. -/
structure ChatCompletionTool where
  type : String
  name : String
  description : String
  parameters : JSValue
  deriving Repr

/-- The relevant slice of an ADK `LlmRequest`. -/
structure LlmRequest where
  contents : Option (List Content)
  systemInstruction : SystemInstruction
  tools : Option (List ToolGroup)
  deriving Repr

/-- Embedding of `convertTools` (src/converters/request.ts): for each
declaration of each group, emit a tool whose parameters are the normalized
schema, or the default `{type:"object", properties:{}}` when normalization
returns the `undefined` sentinel. -/
def convertTools (req : LlmRequest) : Option (List ChatCompletionTool) :=
  match req.tools with
  | none => none
  | some groups =>
    if groups.length == 0 then none
    else
      let tools := groups.flatMap fun g =>
        (g.functionDeclarations.getD []).map fun fn =>
          { type := "function"
            name := fn.name.getD ""
            description := fn.description.getD ""
            parameters :=
              match normalizeSchema (fn.parameters.getD .vUndefined) with
              | .vUndefined =>
                .vObj [("type", .vStr "object"), ("properties", .vObj [])]
              | n => n }
      if tools.length == 0 then none else some tools

/-- Embedding of `convertRequest` (src/converters/request.ts): optional
system message, then the per-turn messages of `processContent` in turn
order, plus the converted tools. -/
def convertRequest (now : Nat) (jstr : JSValue → String) (req : LlmRequest) :
    List ChatMessage × Option (List ChatCompletionTool) :=
  let sysMsgs :=
    match extractSystemInstruction req.systemInstruction with
    | some s => [ChatMessage.system s]
    | none => []
  (sysMsgs ++ (req.contents.getD []).flatMap (processContent now jstr),
   convertTools req)

/-- An ADK `Part` as constructed by the response converters: every part the
source pushes is either `{text}` or `{functionCall: {id, name, args}}`, so
the output side is embedded as a sum. -/
inductive OutPart where
  | text (t : String)
  | functionCall (id : String) (name : String) (args : JSValue)
  deriving Repr

/-- The `content` object of an ADK response: the source always constructs
`{role: "model", parts}`. -/
structure OutContent where
  role : String
  parts : List OutPart
  deriving Repr

/-- ADK usage metadata mapped from vendor token counts. -/
structure UsageMetadata where
  promptTokenCount : Nat
  candidatesTokenCount : Nat
  totalTokenCount : Nat
  deriving Repr

/-- An ADK `LlmResponse` as constructed by the converters.  Every field is
optional; `none` embeds a field the source did not set on the object
literal.  The TS field `partial` is embedded as `isPartial`. -/
structure LlmResponse where
  content : Option OutContent := none
  turnComplete : Option Bool := none
  isPartial : Option Bool := none
  usageMetadata : Option UsageMetadata := none
  errorCode : Option String := none
  errorMessage : Option String := none
  deriving Repr

/-- Embedding of `safeJsonParse`, defined identically in
src/converters/response.ts and src/providers/anthropic/converters/response.ts:
`JSON.parse(str)` inside a try/catch that returns `{}` on any parse error.
`jparse` is the `JSON.parse` builtin, `none` modelling a thrown error. -/
def safeJsonParse (jparse : String → Option JSValue) (str : String) : JSValue :=
  match jparse str with
  | some v => v
  | none => .vObj []

/-- The `function` field of a completed tool call on a vendor response. -/
structure RespToolCallFunction where
  name : String
  arguments : String
  deriving Repr

/-- One completed tool call on a vendor response message. -/
structure RespToolCall where
  id : String
  function : RespToolCallFunction
  deriving Repr

/-- The `message` of a vendor chat-completion choice: `content` is
`string | null`, `tool_calls` is optional. -/
structure RespMessage where
  content : Option String
  tool_calls : Option (List RespToolCall)
  deriving Repr

/-- One choice of a single-shot vendor response. -/
structure RespChoice where
  message : RespMessage
  deriving Repr

/-- Vendor-reported token usage. -/
structure RespUsage where
  prompt_tokens : Nat
  completion_tokens : Nat
  total_tokens : Nat
  deriving Repr

/-- A single-shot vendor chat-completion response. -/
structure ChatCompletion where
  choices : List RespChoice
  usage : Option RespUsage
  deriving Repr

/-- Embedding of `convertResponse` (src/converters/response.ts).  The source
reads `response.choices[0]`; an empty choice list yields the `NO_CHOICE`
error response.  Otherwise parts are a text part for truthy message content
followed by a function-call part per tool call, with arguments put through
`safeJsonParse`; `content` is set only when parts are non-empty. -/
def convertResponse (jparse : String → Option JSValue) (response : ChatCompletion) :
    LlmResponse :=
  match response.choices.head? with
  | none =>
    { errorCode := some "NO_CHOICE"
      errorMessage := some "No response choice"
      turnComplete := some true }
  | some choice =>
    let parts : List OutPart :=
      (if jsTruthyStr choice.message.content then
        [OutPart.text (choice.message.content.getD "")]
       else []) ++
      (choice.message.tool_calls.getD []).map fun tc =>
        OutPart.functionCall tc.id tc.function.name
          (safeJsonParse jparse tc.function.arguments)
    { content :=
        if parts.length != 0 then some { role := "model", parts } else none
      turnComplete := some true
      usageMetadata := response.usage.map fun u =>
        { promptTokenCount := u.prompt_tokens
          candidatesTokenCount := u.completion_tokens
          totalTokenCount := u.total_tokens } }

/-- One tool-call slot of the stream accumulator
(`ToolCallAccumulator` in src/types.ts). -/
structure ToolCallAccumulator where
  id : String
  name : String
  arguments : String
  deriving Repr

/-- The stream accumulator (`StreamAccumulator` in src/types.ts): running
text plus a JS `Map` from fragment index to tool-call slot, embedded as an
insertion-ordered association list. -/
structure StreamAccumulator where
  text : String
  toolCalls : List (Nat × ToolCallAccumulator)
  deriving Repr

/-- Embedding of `createStreamAccumulator` (src/converters/response.ts). -/
def createStreamAccumulator : StreamAccumulator :=
  { text := "", toolCalls := [] }

/-- `Map.prototype.get` on the insertion-ordered association list. -/
def mapFind {α : Type} (m : List (Nat × α)) (k : Nat) : Option α :=
  (m.find? fun p => p.1 == k).map fun p => p.2

/-- `Map.prototype.set` on the insertion-ordered association list: an
existing key is overwritten in place, a new key is appended at the end,
matching JS `Map` iteration-order semantics. -/
def mapSet {α : Type} (m : List (Nat × α)) (k : Nat) (v : α) : List (Nat × α) :=
  match m with
  | [] => [(k, v)]
  | (k', v') :: rest =>
    if k' == k then (k, v) :: rest else (k', v') :: mapSet rest k v

/-- The `function` field of a streamed tool-call fragment: both sub-fields
optional. -/
structure DeltaToolCallFunction where
  name : Option String
  arguments : Option String
  deriving Repr

/-- One streamed tool-call fragment of a dialect-A chunk delta. -/
structure DeltaToolCall where
  index : Option Nat
  id : Option String
  function : Option DeltaToolCallFunction
  deriving Repr

/-- The `delta` of a dialect-A streaming chunk choice. -/
structure ChunkDelta where
  content : Option String
  tool_calls : Option (List DeltaToolCall)
  deriving Repr

/-- One choice of a dialect-A streaming chunk: `finish_reason` is
`string | null` (`none` embeds `null`). -/
structure ChunkChoice where
  delta : Option ChunkDelta
  finish_reason : Option String
  deriving Repr

/-- A dialect-A streaming chunk. -/
structure ChatCompletionChunk where
  choices : List ChunkChoice
  deriving Repr

/-- The result record of the chunk converter
(`StreamChunkResult` in src/types.ts). -/
structure StreamChunkResult where
  response : Option LlmResponse := none
  isComplete : Bool
  deriving Repr

/-- The body of `convertStreamChunk`'s `for (const tc of delta.tool_calls)`
loop for one fragment: resolve the slot by `tc.index ?? 0`, creating it
empty if absent; a truthy fragment id overwrites the slot id; truthy name
and arguments fragments are appended onto the slot's strings; the slot is
stored back at its key. -/
def applyToolCallDelta (acc : StreamAccumulator) (tc : DeltaToolCall) :
    StreamAccumulator :=
  let idx := tc.index.getD 0
  let a := (mapFind acc.toolCalls idx).getD { id := "", name := "", arguments := "" }
  let a := if jsTruthyStr tc.id then { a with id := tc.id.getD "" } else a
  let a :=
    if jsTruthyStr (tc.function.bind fun f => f.name) then
      { a with name := a.name ++ (tc.function.bind fun f => f.name).getD "" }
    else a
  let a :=
    if jsTruthyStr (tc.function.bind fun f => f.arguments) then
      { a with arguments := a.arguments ++ (tc.function.bind fun f => f.arguments).getD "" }
    else a
  { acc with toolCalls := mapSet acc.toolCalls idx a }

/-- The whole tool-call loop of `convertStreamChunk`, fragment by fragment. -/
def applyToolCallDeltas (acc : StreamAccumulator) (tcs : List DeltaToolCall) :
    StreamAccumulator :=
  tcs.foldl applyToolCallDelta acc

/-- The final-parts assembly of `convertStreamChunk`'s finish branch: one
text part from the accumulated text when truthy, then one function-call
part per slot with a truthy name, in map (insertion) order, the arguments
string put through `safeJsonParse`. -/
def assembleParts (jparse : String → Option JSValue) (acc : StreamAccumulator) :
    List OutPart :=
  (if acc.text == "" then [] else [OutPart.text acc.text]) ++
  acc.toolCalls.filterMap fun p =>
    if p.2.name == "" then none
    else some (OutPart.functionCall p.2.id p.2.name
      (safeJsonParse jparse p.2.arguments))

/-- Embedding of `convertStreamChunk` (src/converters/response.ts), in
state-passing style: the source mutates `acc` in place, the embedding
returns the updated accumulator next to the result.  Branch order follows
the source exactly: no first choice → nothing; truthy `delta?.content` →
append to `acc.text` and return a partial response immediately (the finish
check is *not* reached); otherwise apply any tool-call fragments, then on a
truthy `finish_reason` assemble the final parts, reset the accumulator and
return the complete response; otherwise nothing. -/
def convertStreamChunk (jparse : String → Option JSValue)
    (chunk : ChatCompletionChunk) (acc : StreamAccumulator) :
    StreamChunkResult × StreamAccumulator :=
  match chunk.choices.head? with
  | none => ({ isComplete := false }, acc)
  | some choice =>
    let delta := choice.delta
    if jsTruthyStr (delta.bind fun d => d.content) then
      let frag := (delta.bind fun d => d.content).getD ""
      ({ response := some
          { content := some { role := "model", parts := [OutPart.text frag] }
            isPartial := some true }
         isComplete := false },
       { acc with text := acc.text ++ frag })
    else
      let acc1 :=
        match delta.bind fun d => d.tool_calls with
        | some tcs => applyToolCallDeltas acc tcs
        | none => acc
      if jsTruthyStr choice.finish_reason then
        let parts := assembleParts jparse acc1
        ({ response := some
            { content :=
                if parts.length != 0 then some { role := "model", parts } else none
              turnComplete := some true }
           isComplete := true },
         { text := "", toolCalls := [] })
      else
        ({ isComplete := false }, acc1)

/-- One accumulated tool use of the Anthropic stream accumulator. -/
structure AnthropicToolUse where
  id : String
  name : String
  input : String
  deriving Repr

/-- The Anthropic stream accumulator (`AnthropicStreamAccumulator` in
src/providers/anthropic/converters/response.ts): running text, a JS `Map`
from block index to tool use (insertion-ordered association list), and the
current block index (initially `-1`). -/
structure AnthropicStreamAccumulator where
  text : String
  toolUses : List (Nat × AnthropicToolUse)
  currentBlockIndex : Int
  deriving Repr

/-- Embedding of `createAnthropicStreamAccumulator`. -/
def createAnthropicStreamAccumulator : AnthropicStreamAccumulator :=
  { text := "", toolUses := [], currentBlockIndex := -1 }

/-- The `content_block` of a `content_block_start` event, as far as the
converter inspects it: a `tool_use` block carries an id and a name; every
other block type (`text`, ...) is not stored. -/
inductive AnthropicContentBlock where
  | tool_use (id : String) (name : String)
  | otherBlock
  deriving Repr

/-- The `delta` of a `content_block_delta` event. -/
inductive AnthropicBlockDelta where
  | text_delta (text : String)
  | input_json_delta (fragJson : String)
  | otherDelta
  deriving Repr

/-- An Anthropic message-stream event, as far as the converter inspects it.
`otherEvent` covers `message_start`, `message_delta` and
`content_block_stop`, which all fall to the source's `default` branch. -/
inductive AnthropicStreamEvent where
  | content_block_start (index : Nat) (content_block : AnthropicContentBlock)
  | content_block_delta (index : Nat) (delta : AnthropicBlockDelta)
  | message_stop
  | otherEvent
  deriving Repr

/-- The result record of the Anthropic event converter
(`AnthropicStreamResult`). -/
structure AnthropicStreamResult where
  response : Option LlmResponse := none
  isComplete : Bool
  deriving Repr

/-- The final-parts assembly of the `message_stop` branch: one text part
from truthy accumulated text, then one function-call part per accumulated
tool use with a truthy name, in map (insertion) order, the input string
put through `safeJsonParse`. -/
def assembleAnthropicParts (jparse : String → Option JSValue)
    (acc : AnthropicStreamAccumulator) : List OutPart :=
  (if acc.text == "" then [] else [OutPart.text acc.text]) ++
  acc.toolUses.filterMap fun p =>
    if p.2.name == "" then none
    else some (OutPart.functionCall p.2.id p.2.name
      (safeJsonParse jparse p.2.input))

/-- Embedding of `convertAnthropicStreamEvent`
(src/providers/anthropic/converters/response.ts), in state-passing style.
`content_block_start` records the block index and initializes a tool-use
slot for `tool_use` blocks; `content_block_delta` appends a text delta to
the accumulated text and emits a partial response, or appends an
`input_json_delta` fragment to the slot at the event's index when that
slot exists; `message_stop` assembles the final parts, resets the
accumulator and reports completion; every other event does nothing. -/
def convertAnthropicStreamEvent (jparse : String → Option JSValue)
    (event : AnthropicStreamEvent) (acc : AnthropicStreamAccumulator) :
    AnthropicStreamResult × AnthropicStreamAccumulator :=
  match event with
  | .content_block_start index block =>
    let acc := { acc with currentBlockIndex := (index : Int) }
    match block with
    | .tool_use id name =>
      ({ isComplete := false },
       { acc with toolUses := mapSet acc.toolUses index { id, name, input := "" } })
    | .otherBlock => ({ isComplete := false }, acc)
  | .content_block_delta index delta =>
    match delta with
    | .text_delta t =>
      ({ response := some
          { content := some { role := "model", parts := [OutPart.text t] }
            isPartial := some true }
         isComplete := false },
       { acc with text := acc.text ++ t })
    | .input_json_delta fragJson =>
      match mapFind acc.toolUses index with
      | some tu =>
        let tu' := { tu with input := tu.input ++ fragJson }
        ({ isComplete := false },
         { acc with toolUses := mapSet acc.toolUses index tu' })
      | none => ({ isComplete := false }, acc)
    | .otherDelta => ({ isComplete := false }, acc)
  | .message_stop =>
    let parts := assembleAnthropicParts jparse acc
    ({ response := some
        { content :=
            if parts.length != 0 then some { role := "model", parts } else none
          turnComplete := some true }
       isComplete := true },
     { text := "", toolUses := [], currentBlockIndex := -1 })
  | .otherEvent => ({ isComplete := false }, acc)

/-- A model of `JSON.parse` in which every string fails to parse; used to
instantiate the `jparse` parameter at concrete inputs. -/
def jsonParseFail : String → Option JSValue := fun _ => none

/-- A model of `JSON.stringify` used to instantiate the `jstr` parameter at
concrete inputs; the converters never inspect the produced string. -/
def jsonStringifyStub : JSValue → String := fun _ => "stub"

/-- A dialect-A chunk whose first choice carries both a truthy text delta
and a non-null finish reason; the source's text branch returns before the
finish check is reached. -/
def chunkTextAndFinish : ChatCompletionChunk :=
  { choices := [{ delta := some { content := some "x", tool_calls := none }
                  finish_reason := some "stop" }] }

/-- A dialect-A chunk carrying only a finish reason. -/
def chunkFinishOnly : ChatCompletionChunk :=
  { choices := [{ delta := some { content := none, tool_calls := none }
                  finish_reason := some "stop" }] }

/-- An accumulator mid-stream: some text and one named tool-call slot with
a non-JSON arguments string. -/
def accMidStream : StreamAccumulator :=
  { text := "Hello world"
    toolCalls := [(0, { id := "id1", name := "get_weather", arguments := "not json" })] }

/-- An Anthropic accumulator mid-stream. -/
def anthropicAccMidStream : AnthropicStreamAccumulator :=
  { text := "Hi"
    toolUses := [(1, { id := "tu1", name := "lookup", input := "not json" })]
    currentBlockIndex := 1 }

/-- The spec scenario's model turn: one part carrying only
`functionCall {id:"call_123", name:"get_weather", args:{city:"Tokyo"}}`. -/
def modelTurnScenario : Content :=
  { role := "model"
    parts := some
      [{ text := none
         functionCall := some
           { id := some "call_123"
             name := some "get_weather"
             args := some (.vObj [("city", .vStr "Tokyo")]) }
         functionResponse := none }] }

/-- A user turn with one text part and one function-response part. -/
def userTurnSample : Content :=
  { role := "user"
    parts := some
      [{ text := some "here you go"
         functionCall := none
         functionResponse := none },
       { text := none
         functionCall := none
         functionResponse := some
           { id := some "call_9"
             name := some "get_weather"
             response := some (.vObj [("temp", .vNum 21)]) } }] }

/-- A dialect-A chunk carrying only a text delta. -/
def chunkTextOnly : ChatCompletionChunk :=
  { choices := [{ delta := some { content := some "Hello", tool_calls := none }
                  finish_reason := none }] }

/-- A single-shot response whose only tool call carries a non-JSON
arguments string. -/
def respOneBadCall : ChatCompletion :=
  { choices := [{ message :=
      { content := none
        tool_calls := some [{ id := "id7"
                              function := { name := "get_weather"
                                            arguments := "not json" } }] } }]
    usage := none }

theorem charOfNat_toNat (n : Nat) (h : n < 55296) : (Char.ofNat n).toNat = n := by
  have hv : n.isValidChar := Or.inl h
  simp [Char.ofNat, hv, Char.toNat, Char.ofNatAux, UInt32.toNat, BitVec.toNat_ofNatLt]

theorem jsCharToLower_idem (c : Char) :
    jsCharToLower (jsCharToLower c) = jsCharToLower c := by
  by_cases h : 65 ≤ c.toNat ∧ c.toNat ≤ 90
  · have hv : (Char.ofNat (c.toNat + 32)).toNat = c.toNat + 32 := by
      apply charOfNat_toNat; omega
    unfold jsCharToLower
    rw [if_pos h, if_neg]
    rw [hv]; omega
  · unfold jsCharToLower
    rw [if_neg h, if_neg h]

theorem mapLower_idem (l : List Char) :
    (l.map jsCharToLower).map jsCharToLower = l.map jsCharToLower := by
  induction l with
  | nil => rfl
  | cons c cs ih => simp only [List.map_cons, jsCharToLower_idem, ih]

theorem jsToLower_idem (s : String) : jsToLower (jsToLower s) = jsToLower s :=
  congrArg String.mk (mapLower_idem s.data)

theorem normFields_eq_map (fs : List (String × JSValue)) :
    normFields fs = fs.map fun p => (p.1, normValue p.1 p.2) := by
  induction fs with
  | nil => rfl
  | cons p rest ih => cases p; simp [normFields, ih]

mutual

theorem normValue_idem (k : String) (v : JSValue) :
    normValue k (normValue k v) = normValue k v := by
  match v with
  | .vStr s =>
    by_cases h : k == "type"
    · simp only [normValue, h, if_pos, jsToLower_idem]
    · simp only [normValue, h, if_neg, Bool.false_eq_true, not_false_iff]
  | .vObj fs =>
    show normValue k (.vObj (normFields fs)) = .vObj (normFields fs)
    show JSValue.vObj (normFields (normFields fs)) = .vObj (normFields fs)
    rw [normFields_idem fs]
  | .vUndefined => rfl
  | .vNull => rfl
  | .vBool b => rfl
  | .vNum n => rfl
  | .vArr xs => rfl

theorem normFields_idem (fs : List (String × JSValue)) :
    normFields (normFields fs) = normFields fs := by
  match fs with
  | [] => rfl
  | (k, v) :: rest =>
    show (k, normValue k (normValue k v)) :: normFields (normFields rest) =
      (k, normValue k v) :: normFields rest
    rw [normValue_idem k v, normFields_idem rest]

end

theorem normFields_arrNormEntries (xs : List JSValue) (i : Nat) :
    normFields (arrNormEntries i xs) = arrNormEntries i xs := by
  induction xs generalizing i with
  | nil => rfl
  | cons v rest ih =>
    show (toString i, normValue (toString i) (normValue (toString i) v)) ::
        normFields (arrNormEntries (i + 1) rest) =
      (toString i, normValue (toString i) v) :: arrNormEntries (i + 1) rest
    rw [normValue_idem, ih]

theorem arrNormEntries_eq_enum (xs : List JSValue) (i : Nat) :
    arrNormEntries i xs =
      (List.enumFrom i xs).map fun p => (toString p.1, normValue (toString p.1) p.2) := by
  induction xs generalizing i with
  | nil => rfl
  | cons v rest ih => simp [arrNormEntries, List.enumFrom, ih]

/-- C6: the schema normalizer returns the `undefined` sentinel exactly for
inputs that are not non-null objects; on a non-null object it maps each
key/value entry: a string value of the key `"type"` is lowercased, a
plain-object value is recursively normalized, arrays and all other values
(numbers, booleans, null, undefined, non-type strings) are stored
unchanged; in particular `{type:"OBJECT", properties:{city:{type:"STRING"}}}`
normalizes to `{type:"object", properties:{city:{type:"string"}}}`. -/
theorem normalizeSchema_spec :
    (∀ v : JSValue,
      (match v with | .vObj _ => False | .vArr _ => False | _ => True) →
      normalizeSchema v = .vUndefined) ∧
    (∀ fields, normalizeSchema (.vObj fields) =
      .vObj (fields.map fun p => (p.1, normValue p.1 p.2))) ∧
    (∀ s, normValue "type" (.vStr s) = .vStr (jsToLower s)) ∧
    (∀ k s, k ≠ "type" → normValue k (.vStr s) = .vStr s) ∧
    (∀ k fs, normValue k (.vObj fs) = normalizeSchema (.vObj fs)) ∧
    (∀ k xs, normValue k (.vArr xs) = .vArr xs) ∧
    (∀ k n, normValue k (.vNum n) = .vNum n) ∧
    (∀ k b, normValue k (.vBool b) = .vBool b) ∧
    (∀ k, normValue k .vNull = .vNull) ∧
    normalizeSchema
        (.vObj [("type", .vStr "OBJECT"),
                ("properties", .vObj [("city", .vObj [("type", .vStr "STRING")])])]) =
      .vObj [("type", .vStr "object"),
             ("properties", .vObj [("city", .vObj [("type", .vStr "string")])])] := by
  refine ⟨?_, ?_, ?_, ?_, ?_, ?_, ?_, ?_, ?_, ?_⟩
  · intro v h
    cases v <;> first | rfl | exact absurd h not_false
  · intro fields
    rw [normalizeSchema, normFields_eq_map]
  · intro s; rfl
  · intro k s h
    have hb : (k == "type") = false := by
      simp only [beq_eq_false_iff_ne, ne_eq]; exact h
    simp only [normValue, hb, Bool.false_eq_true, if_false]
  · intro k fs; rfl
  · intro k xs; rfl
  · intro k n; rfl
  · intro k b; rfl
  · intro k; rfl
  · rfl

/-- Witness for `normalizeSchema_spec`: the hypothesis-bearing conjuncts
applied at concrete inputs. -/
theorem normalizeSchema_spec_witness :
    normalizeSchema (.vStr "STRING") = .vUndefined ∧
    normValue "format" (.vStr "ABC") = .vStr "ABC" :=
  ⟨normalizeSchema_spec.1 (.vStr "STRING") trivial,
   normalizeSchema_spec.2.2.2.1 "format" "ABC" (by decide)⟩

/-- C7: schema normalization is idempotent — applying `normalizeSchema` to
its own output changes nothing, for every input value. -/
theorem normalizeSchema_idem (s : JSValue) :
    normalizeSchema (normalizeSchema s) = normalizeSchema s := by
  match s with
  | .vObj fields =>
    show normalizeSchema (.vObj (normFields fields)) = .vObj (normFields fields)
    rw [normalizeSchema, normFields_idem]
  | .vArr elems =>
    show normalizeSchema (.vObj (arrNormEntries 0 elems)) = .vObj (arrNormEntries 0 elems)
    rw [normalizeSchema, normFields_arrNormEntries]
  | .vUndefined => rfl
  | .vNull => rfl
  | .vBool b => rfl
  | .vNum n => rfl
  | .vStr s => rfl

/-- C10: an array passed as the top-level schema argument does not produce
the `undefined` sentinel: it yields a plain object whose keys are the
decimal array indices, each element processed by the per-key rules; the
sentinel arises exactly for null, undefined and primitive inputs. -/
theorem normalizeSchema_array_spec :
    (∀ xs, normalizeSchema (.vArr xs) = .vObj (arrNormEntries 0 xs)) ∧
    (∀ xs i, arrNormEntries i xs =
      (List.enumFrom i xs).map fun p => (toString p.1, normValue (toString p.1) p.2)) ∧
    (∀ v : JSValue, normalizeSchema v = .vUndefined ↔
      (v = .vNull ∨ v = .vUndefined ∨ (∃ b, v = .vBool b) ∨
       (∃ n, v = .vNum n) ∨ (∃ s, v = .vStr s))) := by
  refine ⟨fun xs => rfl, arrNormEntries_eq_enum, ?_⟩
  intro v
  cases v <;> simp [normalizeSchema]

/-- Witness for `normalizeSchema_array_spec`: the sentinel
characterization applied at concrete inputs on both sides. -/
theorem normalizeSchema_array_spec_witness :
    normalizeSchema (.vArr [.vObj [("type", .vStr "NUMBER")]]) =
      .vObj [("0", .vObj [("type", .vStr "number")])] ∧
    (normalizeSchema (.vNum 3) = .vUndefined ↔
      ((.vNum 3 : JSValue) = .vNull ∨ (.vNum 3 : JSValue) = .vUndefined ∨
       (∃ b, (.vNum 3 : JSValue) = .vBool b) ∨ (∃ n, (.vNum 3 : JSValue) = .vNum n) ∨
       (∃ s, (.vNum 3 : JSValue) = .vStr s))) :=
  ⟨by rw [normalizeSchema_array_spec.1]; rfl,
   normalizeSchema_array_spec.2.2 (.vNum 3)⟩

/-- C9: a vendor response with an empty choice list converts to exactly the
`NO_CHOICE` error response — error code `"NO_CHOICE"`, error message
`"No response choice"`, `turnComplete: true` — with no content (and no
other field) set, and no exception is raised (`convertResponse` is total). -/
theorem convertResponse_noChoice (jparse : String → Option JSValue)
    (response : ChatCompletion) (h : response.choices = []) :
    convertResponse jparse response =
      { errorCode := some "NO_CHOICE"
        errorMessage := some "No response choice"
        turnComplete := some true } := by
  unfold convertResponse
  rw [h]
  rfl

/-- Witness for `convertResponse_noChoice`: the zero-choice response. -/
theorem convertResponse_noChoice_witness :
    convertResponse jsonParseFail { choices := [], usage := none } =
      { errorCode := some "NO_CHOICE"
        errorMessage := some "No response choice"
        turnComplete := some true } :=
  convertResponse_noChoice jsonParseFail { choices := [], usage := none } rfl

/-- C4: a `model` turn with at least one truthy text part or at least one
`functionCall` part yields exactly one assistant message: its content is
the truthy text parts joined with `"\n"`, or the explicit `null`
(`none`, a field always present on the constructed object) when there is
no text; when function-call parts exist it carries a `tool_calls` list in
part order whose entries have type `"function"` and arguments
`JSON.stringify(args ?? {})` (with the `call_<now>` fallback id). -/
theorem processContent_modelTurn (now : Nat) (jstr : JSValue → String)
    (c : Content) (parts : List Part)
    (hp : c.parts = some parts) (hr : c.role = "model")
    (h : collectTexts parts ≠ [] ∨ collectCalls now jstr parts ≠ []) :
    processContent now jstr c =
      [ChatMessage.assistant
        (if collectTexts parts = [] then none
         else some (String.intercalate "\n" (collectTexts parts)))
        (if collectCalls now jstr parts = [] then none
         else some (collectCalls now jstr parts))] ∧
    collectCalls now jstr parts =
      parts.filterMap fun p => p.functionCall.map fun fc =>
        { id := fc.id.getD ("call_" ++ toString now)
          type := "function"
          function :=
            { name := fc.name.getD ""
              arguments := jstr (fc.args.getD (.vObj [])) } } := by
  constructor
  · have hne : parts ≠ [] := by
      rintro rfl
      rcases h with h | h <;> exact h rfl
    have hlen : (parts.length == 0) = false := by
      simp [List.length_eq_zero, hne]
    unfold processContent
    rw [hp, hr]
    simp only [hlen, Bool.false_eq_true, if_false, reduceCtorEq]
    norm_num
    rw [if_neg (show ¬("model" = "user") by decide), if_pos h]
  · rfl

/-- Witness for `processContent_modelTurn`: the spec scenario turn, with
`Date.now() = 0` and a stub stringifier. -/
theorem processContent_modelTurn_witness :
    (processContent 0 jsonStringifyStub modelTurnScenario =
      [ChatMessage.assistant
        (if collectTexts ((modelTurnScenario.parts).getD []) = [] then none
         else some (String.intercalate "\n" (collectTexts ((modelTurnScenario.parts).getD []))))
        (if collectCalls 0 jsonStringifyStub ((modelTurnScenario.parts).getD []) = [] then none
         else some (collectCalls 0 jsonStringifyStub ((modelTurnScenario.parts).getD [])))]) ∧
    collectCalls 0 jsonStringifyStub ((modelTurnScenario.parts).getD []) =
      ((modelTurnScenario.parts).getD []).filterMap fun p =>
        p.functionCall.map fun fc =>
          { id := fc.id.getD ("call_" ++ toString 0)
            type := "function"
            function :=
              { name := fc.name.getD ""
                arguments := jsonStringifyStub (fc.args.getD (.vObj [])) } } :=
  processContent_modelTurn 0 jsonStringifyStub modelTurnScenario
    ((modelTurnScenario.parts).getD []) rfl rfl (Or.inr (by decide))

/-- C5: a `user` turn yields one user message carrying the truthy text
parts joined with `"\n"` (omitted entirely when there is none), followed by
one `tool` message per `functionResponse` part, in part order, with
`tool_call_id` the response id (default `""`) and content
`JSON.stringify(response ?? {})`; function responses are never merged into
the user message. -/
theorem processContent_userTurn (now : Nat) (jstr : JSValue → String)
    (c : Content) (parts : List Part)
    (hp : c.parts = some parts) (hr : c.role = "user") :
    processContent now jstr c =
      (if collectTexts parts = [] then []
       else [ChatMessage.user (String.intercalate "\n" (collectTexts parts))]) ++
      parts.filterMap fun p =>
        p.functionResponse.map fun fr =>
          ChatMessage.tool (fr.id.getD "") (jstr (fr.response.getD (.vObj []))) := by
  unfold processContent
  rw [hp, hr]
  by_cases hne : parts = []
  · subst hne; rfl
  · have hlen : (parts.length == 0) = false := by
      simp [List.length_eq_zero, hne]
    simp only [hlen, Bool.false_eq_true, if_false]
    norm_num
    unfold collectResponses
    rw [List.map_filterMap]
    congr 1
    funext p
    cases p.functionResponse <;> rfl

/-- Witness for `processContent_userTurn`: a user turn with one text part
and one function-response part. -/
theorem processContent_userTurn_witness :
    processContent 0 jsonStringifyStub userTurnSample =
      (if collectTexts ((userTurnSample.parts).getD []) = [] then []
       else [ChatMessage.user
         (String.intercalate "\n" (collectTexts ((userTurnSample.parts).getD [])))]) ++
      ((userTurnSample.parts).getD []).filterMap fun p =>
        p.functionResponse.map fun fr =>
          ChatMessage.tool (fr.id.getD "")
            (jsonStringifyStub (fr.response.getD (.vObj []))) :=
  processContent_userTurn 0 jsonStringifyStub userTurnSample
    ((userTurnSample.parts).getD []) rfl rfl

theorem safeJsonParse_eq_getD (jparse : String → Option JSValue) (s : String) :
    safeJsonParse jparse s = (jparse s).getD (.vObj []) := by
  unfold safeJsonParse
  cases jparse s <;> rfl

/-- Counterexample to C1 as stated: a chunk whose first choice carries the
non-null finish reason `"stop"` *and* a truthy text delta is handled by the
text branch, which returns before the finish check — the call reports
`isComplete: false` and a partial (not turn-complete) response. -/
theorem convertStreamChunk_finish_preempted :
    (chunkTextAndFinish.choices.head?.bind fun c => c.finish_reason) = some "stop" ∧
    (convertStreamChunk jsonParseFail chunkTextAndFinish createStreamAccumulator).1.isComplete
      = false ∧
    ((convertStreamChunk jsonParseFail chunkTextAndFinish createStreamAccumulator).1.response.map
      fun r => r.turnComplete) = some none :=
  ⟨rfl, rfl, rfl⟩

/-- C1 (amended): for every dialect-A chunk whose first choice carries a
truthy (non-null, non-empty) finish reason and whose delta does *not*
carry truthy text content, `convertStreamChunk` returns
`isComplete: true` and a final response with `turnComplete: true` whose
content is assembled from the accumulator as updated by this chunk's
tool-call fragments: one text part from the accumulated text if non-empty,
then one function-call part per slot with a non-empty name, `args` being
the JSON parse of the slot's accumulated arguments string (`{}` on parse
failure), the content being absent when no parts were assembled; the
accumulator is left reset.  (The unamended claim, quantifying over every
chunk with a non-null finish reason, fails on chunks that also carry a
text delta: see `convertStreamChunk_finish_preempted`.) -/
theorem convertStreamChunk_finish (jparse : String → Option JSValue)
    (chunk : ChatCompletionChunk) (acc : StreamAccumulator) (choice : ChunkChoice)
    (h1 : chunk.choices.head? = some choice)
    (h2 : jsTruthyStr (choice.delta.bind fun d => d.content) = false)
    (h3 : jsTruthyStr choice.finish_reason = true) :
    convertStreamChunk jparse chunk acc =
      (let acc1 :=
        match choice.delta.bind fun d => d.tool_calls with
        | some tcs => applyToolCallDeltas acc tcs
        | none => acc
       let parts :=
        (if acc1.text == "" then [] else [OutPart.text acc1.text]) ++
        acc1.toolCalls.filterMap fun p =>
          if p.2.name == "" then none
          else some (OutPart.functionCall p.2.id p.2.name
            ((jparse p.2.arguments).getD (.vObj [])))
       ({ response := some
            { content :=
                if parts.length != 0 then some { role := "model", parts } else none
              turnComplete := some true }
          isComplete := true },
        { text := "", toolCalls := [] })) := by
  unfold convertStreamChunk
  rw [h1]
  simp only [h2, Bool.false_eq_true, if_false, h3, if_true]
  simp only [assembleParts, safeJsonParse_eq_getD]

/-- Witness for `convertStreamChunk_finish`: a finish-only chunk applied to
a mid-stream accumulator holding text and one named tool call whose
arguments fail to parse. -/
theorem convertStreamChunk_finish_witness :
    convertStreamChunk jsonParseFail chunkFinishOnly accMidStream =
      ({ response := some
          { content := some
              { role := "model",
                parts := [OutPart.text "Hello world",
                          OutPart.functionCall "id1" "get_weather" (.vObj [])] }
            turnComplete := some true }
         isComplete := true },
       { text := "", toolCalls := [] }) :=
  convertStreamChunk_finish jsonParseFail chunkFinishOnly accMidStream
    { delta := some { content := none, tool_calls := none }
      finish_reason := some "stop" } rfl rfl rfl

/-- Counterexample to C2 as stated: the same text-plus-finish chunk is a
"terminal fragment" by the claim's dialect-A definition (non-null finish
reason), yet after the call the accumulator's text is the appended
fragment, not `""` — the text branch returns before the reset runs. -/
theorem accumulatorReset_preempted :
    (chunkTextAndFinish.choices.head?.bind fun c => c.finish_reason) = some "stop" ∧
    (convertStreamChunk jsonParseFail chunkTextAndFinish accMidStream).2.text ≠ "" :=
  ⟨rfl, by decide⟩

/-- C2 (amended): after any call that actually processes a terminal
fragment — dialect A: a chunk whose first choice has a truthy finish
reason and whose delta carries no truthy text content (otherwise the text
branch preempts the finish branch, see `accumulatorReset_preempted`);
dialect B: a `message_stop` event — the accumulator satisfies
`text = ""` with an empty tool-call map, no matter what was accumulated
before. -/
theorem accumulatorReset_spec :
    (∀ (jparse : String → Option JSValue) (chunk : ChatCompletionChunk)
       (acc : StreamAccumulator) (choice : ChunkChoice),
       chunk.choices.head? = some choice →
       jsTruthyStr (choice.delta.bind fun d => d.content) = false →
       jsTruthyStr choice.finish_reason = true →
       (convertStreamChunk jparse chunk acc).2.text = "" ∧
       (convertStreamChunk jparse chunk acc).2.toolCalls = []) ∧
    (∀ (jparse : String → Option JSValue) (acc : AnthropicStreamAccumulator),
       (convertAnthropicStreamEvent jparse .message_stop acc).2.text = "" ∧
       (convertAnthropicStreamEvent jparse .message_stop acc).2.toolUses = []) := by
  constructor
  · intro jparse chunk acc choice h1 h2 h3
    unfold convertStreamChunk
    rw [h1]
    simp only [h2, Bool.false_eq_true, if_false, h3, if_true]
    exact ⟨trivial, trivial⟩
  · intro jparse acc
    exact ⟨rfl, rfl⟩

/-- Witness for `accumulatorReset_spec`: both dialects applied to
mid-stream accumulators holding text and tool-call state. -/
theorem accumulatorReset_spec_witness :
    ((convertStreamChunk jsonParseFail chunkFinishOnly accMidStream).2.text = "" ∧
     (convertStreamChunk jsonParseFail chunkFinishOnly accMidStream).2.toolCalls = []) ∧
    ((convertAnthropicStreamEvent jsonParseFail .message_stop anthropicAccMidStream).2.text = "" ∧
     (convertAnthropicStreamEvent jsonParseFail .message_stop anthropicAccMidStream).2.toolUses = []) :=
  ⟨accumulatorReset_spec.1 jsonParseFail chunkFinishOnly accMidStream
     { delta := some { content := none, tool_calls := none }
       finish_reason := some "stop" } rfl rfl rfl,
   accumulatorReset_spec.2 jsonParseFail anthropicAccMidStream⟩

/-- C3: every response either chunk converter emits with `partial: true`
is a text-delta response carrying exactly one text part holding only the
fragment just received — never the cumulative accumulated text (the
fragment is appended to the accumulator's text, and the emitted partial
response carries no `turnComplete`); only the terminal branch, which
emits `turnComplete: true` and no `partial` flag, carries the assembled
text (its shape is `convertStreamChunk_finish`). -/
theorem partialFragmentOnly_spec :
    (∀ (jparse : String → Option JSValue) (chunk : ChatCompletionChunk)
       (acc : StreamAccumulator) (resp : LlmResponse),
       (convertStreamChunk jparse chunk acc).1.response = some resp →
       resp.isPartial = some true →
       ∃ frag,
         (chunk.choices.head?.bind fun c => c.delta.bind fun d => d.content) = some frag ∧
         resp.content = some { role := "model", parts := [OutPart.text frag] } ∧
         resp.turnComplete = none ∧
         (convertStreamChunk jparse chunk acc).2.text = acc.text ++ frag) ∧
    (∀ (jparse : String → Option JSValue) (event : AnthropicStreamEvent)
       (acc : AnthropicStreamAccumulator) (resp : LlmResponse),
       (convertAnthropicStreamEvent jparse event acc).1.response = some resp →
       resp.isPartial = some true →
       ∃ index frag,
         event = .content_block_delta index (.text_delta frag) ∧
         resp.content = some { role := "model", parts := [OutPart.text frag] } ∧
         resp.turnComplete = none ∧
         (convertAnthropicStreamEvent jparse event acc).2.text = acc.text ++ frag) := by
  constructor
  · intro jparse chunk acc resp h hp
    cases hc : chunk.choices.head? with
    | none => simp [convertStreamChunk, hc] at h
    | some choice =>
      by_cases ht : jsTruthyStr (choice.delta.bind fun d => d.content) = true
      · cases ho : choice.delta.bind fun d => d.content with
        | none => rw [ho] at ht; simp [jsTruthyStr] at ht
        | some t =>
          rw [ho] at ht
          simp only [convertStreamChunk, hc, ho, ht, if_true, Option.getD_some,
            Option.some.injEq] at h
          subst h
          refine ⟨t, by simp [hc, ho], rfl, rfl, ?_⟩
          simp only [convertStreamChunk, hc, ho, ht, if_true, Option.getD_some]
      · rw [Bool.not_eq_true] at ht
        by_cases hf : jsTruthyStr choice.finish_reason = true
        · simp only [convertStreamChunk, hc, ht, Bool.false_eq_true, if_false, hf,
            if_true, Option.some.injEq] at h
          subst h
          simp at hp
        · rw [Bool.not_eq_true] at hf
          simp only [convertStreamChunk, hc, ht, Bool.false_eq_true, if_false, hf] at h
          exact Option.noConfusion h
  · intro jparse event acc resp h hp
    cases event with
    | content_block_start index block =>
      cases block <;> simp [convertAnthropicStreamEvent] at h
    | content_block_delta index delta =>
      cases delta with
      | text_delta t =>
        simp only [convertAnthropicStreamEvent, Option.some.injEq] at h
        subst h
        exact ⟨index, t, rfl, rfl, rfl, rfl⟩
      | input_json_delta fragJson =>
        cases hm : mapFind acc.toolUses index <;>
          simp [convertAnthropicStreamEvent, hm] at h
      | otherDelta => simp [convertAnthropicStreamEvent] at h
    | message_stop =>
      simp only [convertAnthropicStreamEvent, Option.some.injEq] at h
      subst h
      simp at hp
    | otherEvent => simp [convertAnthropicStreamEvent] at h

/-- Witness for `partialFragmentOnly_spec`: a text-delta chunk and a
text-delta event, each emitting a partial response. -/
theorem partialFragmentOnly_spec_witness :
    (∃ frag,
      (chunkTextOnly.choices.head?.bind fun c => c.delta.bind fun d => d.content)
        = some frag ∧
      ({ content := some { role := "model", parts := [OutPart.text "Hello"] }
         isPartial := some true } : LlmResponse).content
        = some { role := "model", parts := [OutPart.text frag] } ∧
      ({ content := some { role := "model", parts := [OutPart.text "Hello"] }
         isPartial := some true } : LlmResponse).turnComplete = none ∧
      (convertStreamChunk jsonParseFail chunkTextOnly accMidStream).2.text
        = accMidStream.text ++ frag) ∧
    (∃ index frag,
      (AnthropicStreamEvent.content_block_delta 0 (.text_delta "Hi") =
        .content_block_delta index (.text_delta frag)) ∧
      ({ content := some { role := "model", parts := [OutPart.text "Hi"] }
         isPartial := some true } : LlmResponse).content
        = some { role := "model", parts := [OutPart.text frag] } ∧
      ({ content := some { role := "model", parts := [OutPart.text "Hi"] }
         isPartial := some true } : LlmResponse).turnComplete = none ∧
      (convertAnthropicStreamEvent jsonParseFail
        (.content_block_delta 0 (.text_delta "Hi")) anthropicAccMidStream).2.text
        = anthropicAccMidStream.text ++ frag) :=
  ⟨partialFragmentOnly_spec.1 jsonParseFail chunkTextOnly accMidStream
     { content := some { role := "model", parts := [OutPart.text "Hello"] }
       isPartial := some true } rfl rfl,
   partialFragmentOnly_spec.2 jsonParseFail (.content_block_delta 0 (.text_delta "Hi"))
     anthropicAccMidStream
     { content := some { role := "model", parts := [OutPart.text "Hi"] }
       isPartial := some true } rfl rfl⟩

/-- C8: a tool call whose argument string does not parse as JSON yields
`args = {}` — `safeJsonParse` (shared verbatim by both converter files)
recovers with the empty object, the single-shot converter emits the
corresponding function-call part with `args = {}`, and both streaming
dialects' final assemblies do the same for any accumulated slot with a
non-empty name; all the involved functions are total, so no exception can
propagate to the caller from argument parsing. -/
theorem malformedArgs_spec :
    (∀ (jparse : String → Option JSValue) (s : String),
       jparse s = none → safeJsonParse jparse s = .vObj []) ∧
    (∀ (jparse : String → Option JSValue) (response : ChatCompletion)
       (choice : RespChoice) (tc : RespToolCall),
       response.choices.head? = some choice →
       tc ∈ choice.message.tool_calls.getD [] →
       jparse tc.function.arguments = none →
       ∃ parts, (convertResponse jparse response).content =
           some { role := "model", parts := parts } ∧
         OutPart.functionCall tc.id tc.function.name (.vObj []) ∈ parts) ∧
    (∀ (jparse : String → Option JSValue) (acc : StreamAccumulator)
       (p : Nat × ToolCallAccumulator),
       p ∈ acc.toolCalls → p.2.name ≠ "" → jparse p.2.arguments = none →
       OutPart.functionCall p.2.id p.2.name (.vObj []) ∈ assembleParts jparse acc) ∧
    (∀ (jparse : String → Option JSValue) (acc : AnthropicStreamAccumulator)
       (p : Nat × AnthropicToolUse),
       p ∈ acc.toolUses → p.2.name ≠ "" → jparse p.2.input = none →
       OutPart.functionCall p.2.id p.2.name (.vObj []) ∈
         assembleAnthropicParts jparse acc) := by
  refine ⟨?_, ?_, ?_, ?_⟩
  · intro jparse s h
    rw [safeJsonParse_eq_getD, h]
    rfl
  · intro jparse response choice tc h1 hmem hbad
    have hin :
        OutPart.functionCall tc.id tc.function.name (.vObj []) ∈
          (if jsTruthyStr choice.message.content then
            [OutPart.text (choice.message.content.getD "")]
           else []) ++
          (choice.message.tool_calls.getD []).map fun tc =>
            OutPart.functionCall tc.id tc.function.name
              (safeJsonParse jparse tc.function.arguments) := by
      apply List.mem_append_right
      apply List.mem_map.mpr
      refine ⟨tc, hmem, ?_⟩
      rw [safeJsonParse_eq_getD, hbad]
      rfl
    have hne :
        ((((if jsTruthyStr choice.message.content = true then
              [OutPart.text (choice.message.content.getD "")]
            else []) ++
           (choice.message.tool_calls.getD []).map fun tc =>
             OutPart.functionCall tc.id tc.function.name
               (safeJsonParse jparse tc.function.arguments)).length != 0) = true) := by
      simp only [bne_iff_ne, ne_eq, List.length_eq_zero]
      exact List.ne_nil_of_mem hin
    refine ⟨_, ?_, hin⟩
    unfold convertResponse
    rw [h1]
    dsimp only
    rw [if_pos hne]
  · intro jparse acc p hmem hname hbad
    unfold assembleParts
    apply List.mem_append_right
    apply List.mem_filterMap.mpr
    refine ⟨p, hmem, ?_⟩
    have hb : (p.2.name == "") = false := by
      simp only [beq_eq_false_iff_ne, ne_eq]; exact hname
    rw [hb]
    simp only [Bool.false_eq_true, if_false, safeJsonParse_eq_getD, hbad]
    rfl
  · intro jparse acc p hmem hname hbad
    unfold assembleAnthropicParts
    apply List.mem_append_right
    apply List.mem_filterMap.mpr
    refine ⟨p, hmem, ?_⟩
    have hb : (p.2.name == "") = false := by
      simp only [beq_eq_false_iff_ne, ne_eq]; exact hname
    rw [hb]
    simp only [Bool.false_eq_true, if_false, safeJsonParse_eq_getD, hbad]
    rfl

/-- Witness for `malformedArgs_spec`: the non-JSON string `"not json"`
through `safeJsonParse`, the single-shot converter and both dialects'
final assemblies. -/
theorem malformedArgs_spec_witness :
    safeJsonParse jsonParseFail "not json" = .vObj [] ∧
    (∃ parts, (convertResponse jsonParseFail respOneBadCall).content =
        some { role := "model", parts := parts } ∧
      OutPart.functionCall "id7" "get_weather" (.vObj []) ∈ parts) ∧
    OutPart.functionCall "id1" "get_weather" (.vObj []) ∈
      assembleParts jsonParseFail accMidStream ∧
    OutPart.functionCall "tu1" "lookup" (.vObj []) ∈
      assembleAnthropicParts jsonParseFail anthropicAccMidStream :=
  ⟨malformedArgs_spec.1 jsonParseFail "not json" rfl,
   malformedArgs_spec.2.1 jsonParseFail respOneBadCall
     { message :=
        { content := none
          tool_calls := some [{ id := "id7"
                                function := { name := "get_weather"
                                              arguments := "not json" } }] } }
     { id := "id7", function := { name := "get_weather", arguments := "not json" } }
     rfl (by simp) rfl,
   malformedArgs_spec.2.2.1 jsonParseFail accMidStream
     (0, { id := "id1", name := "get_weather", arguments := "not json" })
     (by simp [accMidStream]) (by decide) rfl,
   malformedArgs_spec.2.2.2 jsonParseFail anthropicAccMidStream
     (1, { id := "tu1", name := "lookup", input := "not json" })
     (by simp [anthropicAccMidStream]) (by decide) rfl⟩

end AdkLlmBridge
